import Mathlib

/-!
# Verification of the CH32V000x I2C driver (`lib_i2c.c`)

Shallow embedding of the transaction state machine in `src/lib_i2c.c`:
`i2c_ping`, `i2c_read` and `i2c_write`.  The driver talks to the hardware
only by (a) polling status conditions (`I2C1->STAR2 & I2C_STAR2_BUSY`,
`i2c_status(event)`, `I2C1->STAR1 & I2C_STAR1_TXE/RXNE`) and (b) issuing
control/data actions (`CTLR1 |= START/STOP/ACK`, `CTLR1 &= ~ACK`,
`DATAR = byte`, reading `DATAR`).  We model (a) by an environment of
oracles indexed by the poll iteration of each wait loop, and (b) by an
explicit trace of actions.  Bytes and addresses are `Nat`; the claims
proved below hold for all `Nat` values, hence in particular for the
`uint8_t` range of the C types.  The timeout constant `I2C_TIMEOUT`
(defined in the header, not part of this translation unit) is a
parameter `tmo`.

Unbounded waits (`while(!cond);` with no timeout) are assumed to
terminate, as the spec stipulates for them ("hardware guarantees this
completes"); each completed wait is recorded in the trace as an `obs`
(condition observed) action.  Bounded waits mirror the C loop
`timeout = I2C_TIMEOUT; while(!cond) { if(--timeout < 0) fail; }`
exactly, including the number of oracle polls performed.
-/

/-- The named status conditions the driver waits on, in source order:
`!(STAR2 & BUSY)`, `I2C_EVENT_MASTER_MODE_SELECT`,
`I2C_EVENT_MASTER_TRANSMITTER_MODE_SELECTED`,
`I2C_EVENT_MASTER_RECEIVER_MODE_SELECTED`, `STAR1 & TXE`, `STAR1 & RXNE`,
`I2C_EVENT_MASTER_BYTE_TRANSMITTED`. -/
inductive Ev where
  | busClear
  | startSel
  | txSel
  | rxSel
  | txe
  | rxne
  | btf
  deriving DecidableEq

/-- Observable actions of the driver on the bus peripheral.
`obs e` records that a wait loop observed condition `e`;
`start` / `stop` are `CTLR1 |= I2C_CTLR1_START/STOP`;
`writeData b` is `DATAR = b`; `readData i` is the `i`-th read of `DATAR`
in the receive loop; `ackOn` is `CTLR1 |= I2C_CTLR1_ACK` and `ackOff` is
`CTLR1 &= ~I2C_CTLR1_ACK`. -/
inductive Act where
  | obs (e : Ev)
  | start
  | stop
  | writeData (b : Nat)
  | readData (i : Nat)
  | ackOn
  | ackOff
  deriving DecidableEq

/-- Result type `i2c_err_t` (the three values this translation unit
produces). -/
inductive i2c_err_t where
  | I2C_OK
  | I2C_ERR_NACK
  | I2C_ERR_TIMEOUT
  deriving DecidableEq

/-- Modelled from the spec: the Bus Status Oracle (`i2c_status` and the
raw status-register tests) lives in the header `lib_i2c.h`, which is not
part of this translation unit.  Per spec section 4.1 and the preamble of
section 8 it is a pure, substitutable predicate on the live status
registers, so each wait loop's condition is modelled as a Boolean oracle
indexed by that loop's poll iteration, and the receive data register as a
byte stream indexed by the read count.
`busy` is `(I2C1->STAR2 & I2C_STAR2_BUSY) != 0` at poll `i` of the idle
wait; `txSel` is `i2c_status(I2C_EVENT_MASTER_TRANSMITTER_MODE_SELECTED)`
at poll `i`; `rxSel` is
`i2c_status(I2C_EVENT_MASTER_RECEIVER_MODE_SELECTED)` at poll `i`;
`data i` is the value of `I2C1->DATAR` at the `i`-th receive-loop read. -/
structure Env where
  busy : Nat → Bool
  txSel : Nat → Bool
  rxSel : Nat → Bool
  data : Nat → Nat

/-- One bounded wait loop of the source,
`timeout = I2C_TIMEOUT; while(!cond(i)) { if(--timeout < 0) fail; }`,
with `t` the remaining value of the `timeout` counter and `i` the index
of the current poll.  Returns whether the wait succeeded together with
the total number of polls of the condition performed. -/
def boundedWait (cond : Nat → Bool) : Nat → Nat → Bool × Nat
  | 0, i => if cond i then (true, i + 1) else (false, i + 1)
  | t + 1, i => if cond i then (true, i + 1) else boundedWait cond t (i + 1)

/-- Output of `i2c_ping`: result, action trace, and the number of polls
performed by the two bounded waits (bus-idle wait and
address-acknowledgment wait). -/
structure PingOut where
  res : i2c_err_t
  trace : List Act
  busyPolls : Nat
  addrPolls : Nat

/-- `i2c_ping(addr)` from `src/lib_i2c.c` lines 55-77: bounded idle wait
(timeout ⇒ `I2C_ERR_TIMEOUT` before any action); START; wait
`MASTER_MODE_SELECT`; `DATAR = addr & 0xFE`; bounded wait for
`MASTER_TRANSMITTER_MODE_SELECTED` (timeout ⇒ `ret_sta = I2C_ERR_NACK`);
STOP unconditionally; return `ret_sta`. -/
def i2c_ping (tmo : Nat) (env : Env) (addr : Nat) : PingOut :=
  match boundedWait (fun i => !env.busy i) tmo 0 with
  | (false, bp) => ⟨i2c_err_t.I2C_ERR_TIMEOUT, [], bp, 0⟩
  | (true, bp) =>
    match boundedWait env.txSel tmo 0 with
    | (true, ap) =>
      ⟨i2c_err_t.I2C_OK,
       [Act.obs Ev.busClear, Act.start, Act.obs Ev.startSel,
        Act.writeData (addr &&& 0xFE), Act.obs Ev.txSel, Act.stop], bp, ap⟩
    | (false, ap) =>
      ⟨i2c_err_t.I2C_ERR_NACK,
       [Act.obs Ev.busClear, Act.start, Act.obs Ev.startSel,
        Act.writeData (addr &&& 0xFE), Act.stop], bp, ap⟩

/-- Output of `i2c_read`: result, final buffer contents, action trace. -/
structure ReadOut where
  res : i2c_err_t
  buf : Nat → Nat
  trace : List Act

/-- The receive loop of `i2c_read` (lines 132-143):
`uint8_t cbyte = 0; while(cbyte < len) { if(cbyte == len) CTLR1 &= ~ACK;
while(!(STAR1 & RXNE)); buf[cbyte] = DATAR; ++cbyte; }`.
`rem` is the number of iterations left (`len - cbyte`), so the loop
guard `cbyte < len` holds exactly when `rem > 0`; the dead
`cbyte == len` test of the body is kept verbatim. -/
def readLoop (env : Env) (len : Nat) : Nat → Nat → (Nat → Nat) → (Nat → Nat) × List Act
  | 0, _, buf => (buf, [])
  | rem + 1, cbyte, buf =>
    let pre := if cbyte = len then [Act.ackOff] else []
    let buf' := Function.update buf cbyte (env.data cbyte)
    let rest := readLoop env len rem (cbyte + 1) buf'
    (rest.1, pre ++ [Act.obs Ev.rxne, Act.readData cbyte] ++ rest.2)

/-- `i2c_read(addr, reg, buf, len)` from `src/lib_i2c.c` lines 94-149:
bounded idle wait (timeout ⇒ `I2C_ERR_TIMEOUT`); START; wait
`MASTER_MODE_SELECT`; `DATAR = addr & 0xFE`; bounded wait for
`MASTER_TRANSMITTER_MODE_SELECTED` (timeout ⇒ `I2C_ERR_NACK`, no STOP);
`DATAR = reg`; wait TXE; if `len > 1` then `CTLR1 |= ACK`; repeated
START; wait `MASTER_MODE_SELECT`; `DATAR = addr | 0x01`; bounded wait
for `MASTER_RECEIVER_MODE_SELECTED` (timeout ⇒ `I2C_ERR_NACK`, no STOP);
receive loop; STOP; `I2C_OK`. -/
def i2c_read (tmo : Nat) (env : Env) (addr reg : Nat) (buf : Nat → Nat)
    (len : Nat) : ReadOut :=
  match boundedWait (fun i => !env.busy i) tmo 0 with
  | (false, _) => ⟨i2c_err_t.I2C_ERR_TIMEOUT, buf, []⟩
  | (true, _) =>
    match boundedWait env.txSel tmo 0 with
    | (false, _) =>
      ⟨i2c_err_t.I2C_ERR_NACK, buf,
       [Act.obs Ev.busClear, Act.start, Act.obs Ev.startSel,
        Act.writeData (addr &&& 0xFE)]⟩
    | (true, _) =>
      let trB : List Act :=
        [Act.obs Ev.busClear, Act.start, Act.obs Ev.startSel,
         Act.writeData (addr &&& 0xFE), Act.obs Ev.txSel,
         Act.writeData reg, Act.obs Ev.txe]
        ++ (if 1 < len then [Act.ackOn] else [])
        ++ [Act.start, Act.obs Ev.startSel, Act.writeData (addr ||| 0x01)]
      match boundedWait env.rxSel tmo 0 with
      | (false, _) => ⟨i2c_err_t.I2C_ERR_NACK, buf, trB⟩
      | (true, _) =>
        let lp := readLoop env len len 0 buf
        ⟨i2c_err_t.I2C_OK, lp.1,
         trB ++ [Act.obs Ev.rxSel] ++ lp.2 ++ [Act.stop]⟩

/-- Output of `i2c_write`: result and action trace. -/
structure WriteOut where
  res : i2c_err_t
  trace : List Act

/-- The transmit loop of `i2c_write` (lines 176-184):
`uint8_t cbyte = 0; while(cbyte < len) { while(!(STAR1 & TXE));
DATAR = buf[cbyte]; ++cbyte; }`, with `rem = len - cbyte` iterations
left. -/
def writeLoop (buf : Nat → Nat) : Nat → Nat → List Act
  | 0, _ => []
  | rem + 1, cbyte =>
    [Act.obs Ev.txe, Act.writeData (buf cbyte)] ++ writeLoop buf rem (cbyte + 1)

/-- `i2c_write(addr, reg, buf, len)` from `src/lib_i2c.c` lines 152-191:
bounded idle wait (timeout ⇒ `I2C_ERR_TIMEOUT`); START; wait
`MASTER_MODE_SELECT`; `DATAR = addr & 0xFE`; bounded wait for
`MASTER_TRANSMITTER_MODE_SELECTED` (timeout ⇒ `I2C_ERR_NACK`, no STOP);
`DATAR = reg`; wait TXE; transmit loop; wait
`MASTER_BYTE_TRANSMITTED`; STOP; `I2C_OK`. -/
def i2c_write (tmo : Nat) (env : Env) (addr reg : Nat) (buf : Nat → Nat)
    (len : Nat) : WriteOut :=
  match boundedWait (fun i => !env.busy i) tmo 0 with
  | (false, _) => ⟨i2c_err_t.I2C_ERR_TIMEOUT, []⟩
  | (true, _) =>
    match boundedWait env.txSel tmo 0 with
    | (false, _) =>
      ⟨i2c_err_t.I2C_ERR_NACK,
       [Act.obs Ev.busClear, Act.start, Act.obs Ev.startSel,
        Act.writeData (addr &&& 0xFE)]⟩
    | (true, _) =>
      ⟨i2c_err_t.I2C_OK,
       [Act.obs Ev.busClear, Act.start, Act.obs Ev.startSel,
        Act.writeData (addr &&& 0xFE), Act.obs Ev.txSel,
        Act.writeData reg, Act.obs Ev.txe]
       ++ writeLoop buf len 0 ++ [Act.obs Ev.btf, Act.stop]⟩

/-- An environment whose bus is never busy and whose device acknowledges
both address phases on the first poll; the received byte stream is
`i + 7`. -/
def envIdle : Env :=
  ⟨fun _ => false, fun _ => true, fun _ => true, fun i => i + 7⟩

/-- An environment whose bus-busy flag never clears. -/
def envBusy : Env :=
  ⟨fun _ => true, fun _ => false, fun _ => false, fun _ => 0⟩

/-- An environment with an idle bus and a device that never acknowledges
either address phase. -/
def envNoDev : Env :=
  ⟨fun _ => false, fun _ => false, fun _ => false, fun _ => 0⟩

/-- A bounded wait whose condition already holds at the current poll succeeds
after that single poll, for any remaining timeout budget. -/
theorem boundedWait_succeed (cond : Nat → Bool) (t i : Nat) (h : cond i = true) :
    boundedWait cond t i = (true, i + 1) := by
  cases t <;> simp [boundedWait, h]

/-- A bounded wait whose condition never holds fails, after polling the
condition once per decrement of the timeout counter plus the final poll on
which the counter goes negative: `t + 1` polls from a budget of `t`. -/
theorem boundedWait_fail (cond : Nat → Bool) (h : ∀ j, cond j = false) :
    ∀ t i, boundedWait cond t i = (false, i + t + 1) := by
  intro t
  induction t with
  | zero => intro i; simp [boundedWait, h i]
  | succ t ih =>
    intro i
    simp [boundedWait, h i, ih (i + 1)]
    omega

/-- Buffer contents after the receive loop: position `i` holds the `i`-th
received byte when `cbyte ≤ i < len`, and is untouched otherwise. -/
theorem readLoop_fst (env : Env) (len : Nat) :
    ∀ (rem cbyte : Nat) (buf : Nat → Nat), cbyte + rem = len → ∀ i,
      (readLoop env len rem cbyte buf).1 i =
        if cbyte ≤ i ∧ i < len then env.data i else buf i := by
  intro rem
  induction rem with
  | zero =>
    intro cbyte buf hc i
    have hno : ¬ (cbyte ≤ i ∧ i < len) := by omega
    simp [readLoop, hno]
  | succ rem ih =>
    intro cbyte buf hc i
    simp only [readLoop]
    rw [ih (cbyte + 1) _ (by omega) i]
    by_cases hi : i = cbyte
    · subst hi
      have h1 : ¬ (i + 1 ≤ i ∧ i < len) := by omega
      have h2 : i ≤ i ∧ i < len := by omega
      simp [h1, h2]
    · have h2 : (cbyte + 1 ≤ i ∧ i < len) ↔ (cbyte ≤ i ∧ i < len) := by omega
      simp [Function.update_apply, hi, h2]

/-- Action trace of the receive loop: one RXNE observation followed by one
data-register read per index, in index order; in particular the dead
`cbyte == len` branch never contributes an `ackOff`. -/
theorem readLoop_trace (env : Env) (len : Nat) :
    ∀ (rem cbyte : Nat) (buf : Nat → Nat), cbyte + rem = len →
      (readLoop env len rem cbyte buf).2 =
        (List.range' cbyte rem).flatMap
          (fun i => [Act.obs Ev.rxne, Act.readData i]) := by
  intro rem
  induction rem with
  | zero => intro cbyte buf hc; simp [readLoop]
  | succ rem ih =>
    intro cbyte buf hc
    have hne : ¬ cbyte = len := by omega
    simp [readLoop, hne, ih (cbyte + 1) _ (by omega), List.range'_succ]

/-- Action trace of the transmit loop: one TXE observation followed by one
data-register write of the corresponding buffer byte per index, in index
order. -/
theorem writeLoop_trace (buf : Nat → Nat) :
    ∀ rem cbyte, writeLoop buf rem cbyte =
      (List.range' cbyte rem).flatMap
        (fun i => [Act.obs Ev.txe, Act.writeData (buf i)]) := by
  intro rem
  induction rem with
  | zero => intro cbyte; simp [writeLoop]
  | succ rem ih => intro cbyte; simp [writeLoop, ih (cbyte + 1), List.range'_succ]

/-- Claim C1: for every address, register, buffer and length, if `i2c_read`
returns `I2C_OK` then it has copied exactly `length` bytes received from the
data register into the buffer in transmission order (byte `i` of the
transfer is stored at buffer index `i`), and every buffer index at or
beyond `length` is unchanged. -/
theorem C1_read_ok_buffer (tmo : Nat) (env : Env) (addr reg : Nat) (buf : Nat → Nat)
    (len : Nat) (h : (i2c_read tmo env addr reg buf len).res = i2c_err_t.I2C_OK) :
    (∀ i, i < len → (i2c_read tmo env addr reg buf len).buf i = env.data i) ∧
    (∀ i, ¬ i < len → (i2c_read tmo env addr reg buf len).buf i = buf i) := by
  rcases hbw : boundedWait (fun i => !env.busy i) tmo 0 with ⟨b, bp⟩
  cases b
  · exfalso; simp [i2c_read, hbw] at h
  · rcases haw : boundedWait env.txSel tmo 0 with ⟨a, ap⟩
    cases a
    · exfalso; simp [i2c_read, hbw, haw] at h
    · rcases hrw : boundedWait env.rxSel tmo 0 with ⟨r, rp⟩
      cases r
      · exfalso; simp [i2c_read, hbw, haw, hrw] at h
      · constructor
        · intro i hi
          simp only [i2c_read, hbw, haw, hrw]
          rw [readLoop_fst env len len 0 buf (by omega) i]
          simp [hi]
        · intro i hi
          simp only [i2c_read, hbw, haw, hrw]
          rw [readLoop_fst env len len 0 buf (by omega) i]
          simp [hi]

theorem C1_read_ok_buffer_witness :
    (i2c_read 3 envIdle 0x54 0x10 (fun _ => 0) 2).buf 0 = 7 ∧
    (i2c_read 3 envIdle 0x54 0x10 (fun _ => 0) 2).buf 1 = 8 ∧
    (i2c_read 3 envIdle 0x54 0x10 (fun _ => 0) 2).buf 5 = 0 := by
  have h := C1_read_ok_buffer 3 envIdle 0x54 0x10 (fun _ => 0) 2 (by decide)
  exact ⟨h.1 0 (by decide), h.1 1 (by decide), h.2 5 (by decide)⟩

/-- Claim C2 counterexample: on a bus whose busy flag never clears,
`i2c_ping` returns `I2C_ERR_TIMEOUT` having asserted zero START and zero
STOP conditions, refuting "exactly one START and one STOP for every
outcome (Ok, NoAck, or Timeout)". -/
theorem C2_ping_counterexample :
    (i2c_ping 0 envBusy 0).res = i2c_err_t.I2C_ERR_TIMEOUT ∧
    (i2c_ping 0 envBusy 0).trace.count Act.start = 0 ∧
    (i2c_ping 0 envBusy 0).trace.count Act.stop = 0 := by decide

/-- Claim C2 amended: for every address, a call to `i2c_ping` whose outcome
is Ok or NoAck asserts exactly one START and exactly one STOP condition
(on Timeout from the idle wait it asserts neither, per the
counterexample). -/
theorem C2_ping_one_start_one_stop (tmo : Nat) (env : Env) (addr : Nat)
    (h : (i2c_ping tmo env addr).res ≠ i2c_err_t.I2C_ERR_TIMEOUT) :
    (i2c_ping tmo env addr).trace.count Act.start = 1 ∧
    (i2c_ping tmo env addr).trace.count Act.stop = 1 := by
  rcases hbw : boundedWait (fun i => !env.busy i) tmo 0 with ⟨b, bp⟩
  cases b
  · exact absurd (by simp [i2c_ping, hbw]) h
  · rcases haw : boundedWait env.txSel tmo 0 with ⟨a, ap⟩
    cases a <;> simp [i2c_ping, hbw, haw, List.count_cons]

theorem C2_ping_one_start_one_stop_witness :
    (i2c_ping 1 envIdle 4).trace.count Act.start = 1 ∧
    (i2c_ping 1 envIdle 4).trace.count Act.stop = 1 :=
  C2_ping_one_start_one_stop 1 envIdle 4 (by decide)

/-- Claim C3: if the bus-busy status flag never clears, then `i2c_ping`,
`i2c_read` and `i2c_write` all return `I2C_ERR_TIMEOUT` with an empty
action trace — no START asserted, no data-register write — and the idle
wait is bounded: it polls the busy flag exactly `tmo + 1` times. -/
theorem C3_busy_never_clears_timeout (tmo : Nat) (env : Env) (addr reg : Nat)
    (buf : Nat → Nat) (len : Nat) (hb : ∀ i, env.busy i = true) :
    (i2c_ping tmo env addr).res = i2c_err_t.I2C_ERR_TIMEOUT ∧
    (i2c_ping tmo env addr).trace = [] ∧
    (i2c_ping tmo env addr).busyPolls = tmo + 1 ∧
    (i2c_read tmo env addr reg buf len).res = i2c_err_t.I2C_ERR_TIMEOUT ∧
    (i2c_read tmo env addr reg buf len).trace = [] ∧
    (i2c_write tmo env addr reg buf len).res = i2c_err_t.I2C_ERR_TIMEOUT ∧
    (i2c_write tmo env addr reg buf len).trace = [] := by
  have hbw : boundedWait (fun i => !env.busy i) tmo 0 = (false, 0 + tmo + 1) :=
    boundedWait_fail _ (by simp [hb]) tmo 0
  refine ⟨?_, ?_, ?_, ?_, ?_, ?_, ?_⟩ <;> simp [i2c_ping, i2c_read, i2c_write, hbw]

theorem C3_busy_never_clears_timeout_witness :
    (i2c_ping 2 envBusy 5).res = i2c_err_t.I2C_ERR_TIMEOUT ∧
    (i2c_ping 2 envBusy 5).trace = [] ∧
    (i2c_ping 2 envBusy 5).busyPolls = 3 ∧
    (i2c_read 2 envBusy 5 6 (fun _ => 0) 3).res = i2c_err_t.I2C_ERR_TIMEOUT ∧
    (i2c_read 2 envBusy 5 6 (fun _ => 0) 3).trace = [] ∧
    (i2c_write 2 envBusy 5 6 (fun _ => 0) 3).res = i2c_err_t.I2C_ERR_TIMEOUT ∧
    (i2c_write 2 envBusy 5 6 (fun _ => 0) 3).trace = [] :=
  C3_busy_never_clears_timeout 2 envBusy 5 6 (fun _ => 0) 3 (fun _ => rfl)

/-- Claim C4: for every caller-supplied address value (odd or even), the
byte placed on the data register in the write-direction address phase of
`i2c_ping`, `i2c_read` and `i2c_write` is `addr & 0xFE`, whose low bit is
clear, and the byte placed in `i2c_read`'s read-direction address phase is
`addr | 0x01`, whose low bit is set; the caller's low bit never reaches
the wire. -/
theorem C4_addr_direction_bits (tmo : Nat) (env : Env) (addr reg : Nat)
    (buf : Nat → Nat) (len : Nat) :
    (addr &&& 0xFE) % 2 = 0 ∧
    (addr ||| 0x01) % 2 = 1 ∧
    ((i2c_ping tmo env addr).res ≠ i2c_err_t.I2C_ERR_TIMEOUT →
      (i2c_ping tmo env addr).trace.take 4 =
        [Act.obs Ev.busClear, Act.start, Act.obs Ev.startSel,
         Act.writeData (addr &&& 0xFE)]) ∧
    ((i2c_read tmo env addr reg buf len).res ≠ i2c_err_t.I2C_ERR_TIMEOUT →
      (i2c_read tmo env addr reg buf len).trace.take 4 =
        [Act.obs Ev.busClear, Act.start, Act.obs Ev.startSel,
         Act.writeData (addr &&& 0xFE)]) ∧
    ((i2c_write tmo env addr reg buf len).res ≠ i2c_err_t.I2C_ERR_TIMEOUT →
      (i2c_write tmo env addr reg buf len).trace.take 4 =
        [Act.obs Ev.busClear, Act.start, Act.obs Ev.startSel,
         Act.writeData (addr &&& 0xFE)]) ∧
    ((i2c_read tmo env addr reg buf len).res = i2c_err_t.I2C_OK →
      ∃ l1 l2, (i2c_read tmo env addr reg buf len).trace =
        l1 ++ [Act.start, Act.obs Ev.startSel, Act.writeData (addr ||| 0x01)] ++ l2) := by
  have hp0 : (addr &&& 0xFE) % 2 = 0 := by
    have h : (addr &&& 0xFE).testBit 0 = false := by simp [Nat.testBit_and]
    rw [Nat.testBit_zero] at h
    have := of_decide_eq_false h
    omega
  have hp1 : (addr ||| 0x01) % 2 = 1 := by
    have h : (addr ||| 0x01).testBit 0 = true := by simp [Nat.testBit_or]
    rw [Nat.testBit_zero] at h
    exact of_decide_eq_true h
  refine ⟨hp0, hp1, ?_, ?_, ?_, ?_⟩
  · intro h
    rcases hbw : boundedWait (fun i => !env.busy i) tmo 0 with ⟨b, bp⟩
    cases b
    · exact absurd (by simp [i2c_ping, hbw]) h
    · rcases haw : boundedWait env.txSel tmo 0 with ⟨a, ap⟩
      cases a <;> simp [i2c_ping, hbw, haw]
  · intro h
    rcases hbw : boundedWait (fun i => !env.busy i) tmo 0 with ⟨b, bp⟩
    cases b
    · exact absurd (by simp [i2c_read, hbw]) h
    · rcases haw : boundedWait env.txSel tmo 0 with ⟨a, ap⟩
      cases a
      · simp [i2c_read, hbw, haw]
      · rcases hrw : boundedWait env.rxSel tmo 0 with ⟨r, rp⟩
        cases r <;> by_cases hl : 1 < len <;>
          simp [i2c_read, hbw, haw, hrw, hl, List.take]
  · intro h
    rcases hbw : boundedWait (fun i => !env.busy i) tmo 0 with ⟨b, bp⟩
    cases b
    · exact absurd (by simp [i2c_write, hbw]) h
    · rcases haw : boundedWait env.txSel tmo 0 with ⟨a, ap⟩
      cases a <;> simp [i2c_write, hbw, haw]
  · intro h
    rcases hbw : boundedWait (fun i => !env.busy i) tmo 0 with ⟨b, bp⟩
    cases b
    · exfalso; simp [i2c_read, hbw] at h
    · rcases haw : boundedWait env.txSel tmo 0 with ⟨a, ap⟩
      cases a
      · exfalso; simp [i2c_read, hbw, haw] at h
      · rcases hrw : boundedWait env.rxSel tmo 0 with ⟨r, rp⟩
        cases r
        · exfalso; simp [i2c_read, hbw, haw, hrw] at h
        · refine ⟨[Act.obs Ev.busClear, Act.start, Act.obs Ev.startSel,
            Act.writeData (addr &&& 0xFE), Act.obs Ev.txSel,
            Act.writeData reg, Act.obs Ev.txe]
            ++ (if 1 < len then [Act.ackOn] else []),
            [Act.obs Ev.rxSel] ++ (readLoop env len len 0 buf).2 ++ [Act.stop], ?_⟩
          simp [i2c_read, hbw, haw, hrw]

theorem C4_addr_direction_bits_witness :
    (0x55 &&& 0xFE) % 2 = 0 ∧
    (0x55 ||| 0x01) % 2 = 1 ∧
    (i2c_ping 1 envIdle 0x55).trace.take 4 =
      [Act.obs Ev.busClear, Act.start, Act.obs Ev.startSel, Act.writeData 0x54] ∧
    (i2c_read 1 envIdle 0x55 0x10 (fun _ => 0) 2).trace.take 4 =
      [Act.obs Ev.busClear, Act.start, Act.obs Ev.startSel, Act.writeData 0x54] ∧
    (i2c_write 1 envIdle 0x55 0x10 (fun _ => 0) 2).trace.take 4 =
      [Act.obs Ev.busClear, Act.start, Act.obs Ev.startSel, Act.writeData 0x54] ∧
    (∃ l1 l2, (i2c_read 1 envIdle 0x55 0x10 (fun _ => 0) 2).trace =
      l1 ++ [Act.start, Act.obs Ev.startSel, Act.writeData 0x55] ++ l2) := by
  have h := C4_addr_direction_bits 1 envIdle 0x55 0x10 (fun _ => 0) 2
  exact ⟨h.1, h.2.1, h.2.2.1 (by decide), h.2.2.2.1 (by decide),
         h.2.2.2.2.1 (by decide), h.2.2.2.2.2 (by decide)⟩

/-- Claim C6 counterexample: with a configured timeout count of 2 and an
oracle that never reports "address-as-transmitter selected", `i2c_ping`
returns `I2C_ERR_NACK` after 3 poll iterations, not 2: the loop polls once
more than the configured count. -/
theorem C6_ping_poll_count_counterexample :
    (i2c_ping 2 envNoDev 0).res = i2c_err_t.I2C_ERR_NACK ∧
    (i2c_ping 2 envNoDev 0).addrPolls = 3 ∧
    ¬ (i2c_ping 2 envNoDev 0).addrPolls = 2 := by decide

/-- Claim C6 amended: if the status oracle never reports
"address-as-transmitter selected" (with an idle bus), `i2c_ping` returns
`I2C_ERR_NACK` after exactly `tmo + 1` poll iterations — one more than
the configured timeout count, because the loop polls once per decrement
and once more when the counter goes negative. -/
theorem C6_ping_nack_poll_count (tmo : Nat) (env : Env) (addr : Nat)
    (hb : ∀ i, env.busy i = false) (ht : ∀ i, env.txSel i = false) :
    (i2c_ping tmo env addr).res = i2c_err_t.I2C_ERR_NACK ∧
    (i2c_ping tmo env addr).addrPolls = tmo + 1 := by
  have hbw : boundedWait (fun i => !env.busy i) tmo 0 = (true, 0 + 1) :=
    boundedWait_succeed _ tmo 0 (by simp [hb])
  have haw : boundedWait env.txSel tmo 0 = (false, 0 + tmo + 1) :=
    boundedWait_fail _ ht tmo 0
  simp [i2c_ping, hbw, haw]

theorem C6_ping_nack_poll_count_witness :
    (i2c_ping 5 envNoDev 3).res = i2c_err_t.I2C_ERR_NACK ∧
    (i2c_ping 5 envNoDev 3).addrPolls = 6 :=
  C6_ping_nack_poll_count 5 envNoDev 3 (fun _ => rfl) (fun _ => rfl)

/-- Claim C5: whenever `i2c_read` or `i2c_write` returns
`I2C_ERR_NACK` (timeout polling for address acknowledgment, as
transmitter or — for read — as receiver), no STOP condition is asserted,
whereas `i2c_ping` asserts a STOP on the same failure. -/
theorem C5_nack_stop_asymmetry (tmo : Nat) (env : Env) (addr reg : Nat)
    (buf : Nat → Nat) (len : Nat) :
    ((i2c_read tmo env addr reg buf len).res = i2c_err_t.I2C_ERR_NACK →
      Act.stop ∉ (i2c_read tmo env addr reg buf len).trace) ∧
    ((i2c_write tmo env addr reg buf len).res = i2c_err_t.I2C_ERR_NACK →
      Act.stop ∉ (i2c_write tmo env addr reg buf len).trace) ∧
    ((i2c_ping tmo env addr).res = i2c_err_t.I2C_ERR_NACK →
      Act.stop ∈ (i2c_ping tmo env addr).trace) := by
  refine ⟨?_, ?_, ?_⟩
  · intro h
    rcases hbw : boundedWait (fun i => !env.busy i) tmo 0 with ⟨b, bp⟩
    cases b
    · exfalso; simp [i2c_read, hbw] at h
    · rcases haw : boundedWait env.txSel tmo 0 with ⟨a, ap⟩
      cases a
      · simp [i2c_read, hbw, haw]
      · rcases hrw : boundedWait env.rxSel tmo 0 with ⟨r, rp⟩
        cases r
        · by_cases hl : 1 < len <;> simp [i2c_read, hbw, haw, hrw, hl]
        · exfalso; simp [i2c_read, hbw, haw, hrw] at h
  · intro h
    rcases hbw : boundedWait (fun i => !env.busy i) tmo 0 with ⟨b, bp⟩
    cases b
    · exfalso; simp [i2c_write, hbw] at h
    · rcases haw : boundedWait env.txSel tmo 0 with ⟨a, ap⟩
      cases a
      · simp [i2c_write, hbw, haw]
      · exfalso; simp [i2c_write, hbw, haw] at h
  · intro h
    rcases hbw : boundedWait (fun i => !env.busy i) tmo 0 with ⟨b, bp⟩
    cases b
    · exfalso; simp [i2c_ping, hbw] at h
    · rcases haw : boundedWait env.txSel tmo 0 with ⟨a, ap⟩
      cases a <;> simp [i2c_ping, hbw, haw]

theorem C5_nack_stop_asymmetry_witness :
    Act.stop ∉ (i2c_read 1 envNoDev 2 3 (fun _ => 0) 1).trace ∧
    Act.stop ∉ (i2c_write 1 envNoDev 2 3 (fun _ => 0) 1).trace ∧
    Act.stop ∈ (i2c_ping 1 envNoDev 2).trace := by
  have h := C5_nack_stop_asymmetry 1 envNoDev 2 3 (fun _ => 0) 1
  exact ⟨h.1 (by decide), h.2.1 (by decide), h.2.2 (by decide)⟩

/-- Claim C7: `i2c_read` with `len ≤ 1` (including 0) never sets the
continuous-acknowledgment mode bit; with `len > 1` a successful read sets
it, and whenever it is set this happens immediately before the repeated
START is asserted. -/
theorem C7_read_ack_mode (tmo : Nat) (env : Env) (addr reg : Nat)
    (buf : Nat → Nat) (len : Nat) :
    (len ≤ 1 → Act.ackOn ∉ (i2c_read tmo env addr reg buf len).trace) ∧
    (1 < len → (i2c_read tmo env addr reg buf len).res = i2c_err_t.I2C_OK →
      Act.ackOn ∈ (i2c_read tmo env addr reg buf len).trace) ∧
    (Act.ackOn ∈ (i2c_read tmo env addr reg buf len).trace →
      ∃ l1 l2, (i2c_read tmo env addr reg buf len).trace =
        l1 ++ [Act.ackOn, Act.start] ++ l2) := by
  refine ⟨?_, ?_, ?_⟩
  · intro hlen
    have hl : ¬ 1 < len := by omega
    rcases hbw : boundedWait (fun i => !env.busy i) tmo 0 with ⟨b, bp⟩
    cases b
    · simp [i2c_read, hbw]
    · rcases haw : boundedWait env.txSel tmo 0 with ⟨a, ap⟩
      cases a
      · simp [i2c_read, hbw, haw]
      · rcases hrw : boundedWait env.rxSel tmo 0 with ⟨r, rp⟩
        cases r
        · simp [i2c_read, hbw, haw, hrw, hl]
        · simp [i2c_read, hbw, haw, hrw, hl,
            readLoop_trace env len len 0 buf (by omega), List.mem_flatMap]
  · intro hl h
    rcases hbw : boundedWait (fun i => !env.busy i) tmo 0 with ⟨b, bp⟩
    cases b
    · exfalso; simp [i2c_read, hbw] at h
    · rcases haw : boundedWait env.txSel tmo 0 with ⟨a, ap⟩
      cases a
      · exfalso; simp [i2c_read, hbw, haw] at h
      · rcases hrw : boundedWait env.rxSel tmo 0 with ⟨r, rp⟩
        cases r
        · exfalso; simp [i2c_read, hbw, haw, hrw] at h
        · simp [i2c_read, hbw, haw, hrw, hl]
  · intro h
    by_cases hl : 1 < len
    · rcases hbw : boundedWait (fun i => !env.busy i) tmo 0 with ⟨b, bp⟩
      cases b
      · exfalso; simp [i2c_read, hbw] at h
      · rcases haw : boundedWait env.txSel tmo 0 with ⟨a, ap⟩
        cases a
        · exfalso; simp [i2c_read, hbw, haw] at h
        · rcases hrw : boundedWait env.rxSel tmo 0 with ⟨r, rp⟩
          cases r
          · refine ⟨[Act.obs Ev.busClear, Act.start, Act.obs Ev.startSel,
              Act.writeData (addr &&& 0xFE), Act.obs Ev.txSel,
              Act.writeData reg, Act.obs Ev.txe],
              [Act.obs Ev.startSel, Act.writeData (addr ||| 0x01)], ?_⟩
            simp [i2c_read, hbw, haw, hrw, hl]
          · refine ⟨[Act.obs Ev.busClear, Act.start, Act.obs Ev.startSel,
              Act.writeData (addr &&& 0xFE), Act.obs Ev.txSel,
              Act.writeData reg, Act.obs Ev.txe],
              [Act.obs Ev.startSel, Act.writeData (addr ||| 0x01),
               Act.obs Ev.rxSel] ++ (readLoop env len len 0 buf).2
              ++ [Act.stop], ?_⟩
            simp [i2c_read, hbw, haw, hrw, hl]
    · exfalso
      have hle : len ≤ 1 := by omega
      revert h
      have : Act.ackOn ∉ (i2c_read tmo env addr reg buf len).trace := by
        rcases hbw : boundedWait (fun i => !env.busy i) tmo 0 with ⟨b, bp⟩
        cases b
        · simp [i2c_read, hbw]
        · rcases haw : boundedWait env.txSel tmo 0 with ⟨a, ap⟩
          cases a
          · simp [i2c_read, hbw, haw]
          · rcases hrw : boundedWait env.rxSel tmo 0 with ⟨r, rp⟩
            cases r
            · simp [i2c_read, hbw, haw, hrw, hl]
            · simp [i2c_read, hbw, haw, hrw, hl,
                readLoop_trace env len len 0 buf (by omega), List.mem_flatMap]
      exact fun hmem => this hmem

theorem C7_read_ack_mode_witness :
    Act.ackOn ∉ (i2c_read 1 envIdle 2 3 (fun _ => 0) 1).trace ∧
    Act.ackOn ∈ (i2c_read 1 envIdle 2 3 (fun _ => 0) 2).trace ∧
    ∃ l1 l2, (i2c_read 1 envIdle 2 3 (fun _ => 0) 2).trace =
      l1 ++ [Act.ackOn, Act.start] ++ l2 := by
  have h1 := C7_read_ack_mode 1 envIdle 2 3 (fun _ => 0) 1
  have h2 := C7_read_ack_mode 1 envIdle 2 3 (fun _ => 0) 2
  exact ⟨h1.1 (by decide), h2.2.1 (by decide) (by decide),
         h2.2.2 (h2.2.1 (by decide) (by decide))⟩

/-- Claim C8: the branch of `i2c_read`'s receive loop that clears the
acknowledgment bit (guarded by `cbyte == len` inside a loop whose guard
is `cbyte < len`) is unreachable: no execution of `i2c_read` ever clears
the acknowledgment bit. -/
theorem C8_read_never_clears_ack (tmo : Nat) (env : Env) (addr reg : Nat)
    (buf : Nat → Nat) (len : Nat) :
    Act.ackOff ∉ (i2c_read tmo env addr reg buf len).trace := by
  rcases hbw : boundedWait (fun i => !env.busy i) tmo 0 with ⟨b, bp⟩
  cases b
  · simp [i2c_read, hbw]
  · rcases haw : boundedWait env.txSel tmo 0 with ⟨a, ap⟩
    cases a
    · simp [i2c_read, hbw, haw]
    · rcases hrw : boundedWait env.rxSel tmo 0 with ⟨r, rp⟩
      cases r
      · by_cases hl : 1 < len <;> simp [i2c_read, hbw, haw, hrw, hl]
      · by_cases hl : 1 < len <;>
          simp [i2c_read, hbw, haw, hrw, hl,
            readLoop_trace env len len 0 buf (by omega), List.mem_flatMap]

/-- Claim C9: a successful `i2c_write` places the `len` buffer bytes on
the data register front-to-back in index order, each after a
transmit-empty wait, and asserts the STOP condition only after the
"byte fully transmitted" event is observed following the final byte: the
complete action trace is given explicitly. -/
theorem C9_write_order_and_stop (tmo : Nat) (env : Env) (addr reg : Nat)
    (buf : Nat → Nat) (len : Nat)
    (h : (i2c_write tmo env addr reg buf len).res = i2c_err_t.I2C_OK) :
    (i2c_write tmo env addr reg buf len).trace =
      [Act.obs Ev.busClear, Act.start, Act.obs Ev.startSel,
       Act.writeData (addr &&& 0xFE), Act.obs Ev.txSel,
       Act.writeData reg, Act.obs Ev.txe]
      ++ (List.range len).flatMap (fun i => [Act.obs Ev.txe, Act.writeData (buf i)])
      ++ [Act.obs Ev.btf, Act.stop] := by
  rcases hbw : boundedWait (fun i => !env.busy i) tmo 0 with ⟨b, bp⟩
  cases b
  · exfalso; simp [i2c_write, hbw] at h
  · rcases haw : boundedWait env.txSel tmo 0 with ⟨a, ap⟩
    cases a
    · exfalso; simp [i2c_write, hbw, haw] at h
    · simp [i2c_write, hbw, haw, writeLoop_trace buf len 0, List.range_eq_range']

theorem C9_write_order_and_stop_witness :
    (i2c_write 1 envIdle 4 16 (fun i => 10 * i + 1) 2).trace =
      [Act.obs Ev.busClear, Act.start, Act.obs Ev.startSel, Act.writeData 4,
       Act.obs Ev.txSel, Act.writeData 16, Act.obs Ev.txe,
       Act.obs Ev.txe, Act.writeData 1, Act.obs Ev.txe, Act.writeData 11,
       Act.obs Ev.btf, Act.stop] :=
  C9_write_order_and_stop 1 envIdle 4 16 (fun i => 10 * i + 1) 2 (by decide)

/-- Claim C10: with `len = 0`, `i2c_read` leaves every byte of the
caller's buffer unchanged in every environment, and both `i2c_read` and
`i2c_write` still perform the full idle-wait, START, address and register
phases — with no buffer access — and return `I2C_OK` when all waits
succeed. -/
theorem C10_len_zero (tmo : Nat) (env : Env) (addr reg : Nat) (buf : Nat → Nat)
    (hb : env.busy 0 = false) (ht : env.txSel 0 = true) (hr : env.rxSel 0 = true) :
    (∀ (t2 : Nat) (e2 : Env) (i : Nat),
      (i2c_read t2 e2 addr reg buf 0).buf i = buf i) ∧
    (i2c_read tmo env addr reg buf 0).res = i2c_err_t.I2C_OK ∧
    (i2c_read tmo env addr reg buf 0).trace =
      [Act.obs Ev.busClear, Act.start, Act.obs Ev.startSel,
       Act.writeData (addr &&& 0xFE), Act.obs Ev.txSel, Act.writeData reg,
       Act.obs Ev.txe, Act.start, Act.obs Ev.startSel,
       Act.writeData (addr ||| 0x01), Act.obs Ev.rxSel, Act.stop] ∧
    (i2c_write tmo env addr reg buf 0).res = i2c_err_t.I2C_OK ∧
    (i2c_write tmo env addr reg buf 0).trace =
      [Act.obs Ev.busClear, Act.start, Act.obs Ev.startSel,
       Act.writeData (addr &&& 0xFE), Act.obs Ev.txSel, Act.writeData reg,
       Act.obs Ev.txe, Act.obs Ev.btf, Act.stop] := by
  have hbw : boundedWait (fun i => !env.busy i) tmo 0 = (true, 0 + 1) :=
    boundedWait_succeed _ tmo 0 (by simp [hb])
  have haw : boundedWait env.txSel tmo 0 = (true, 0 + 1) :=
    boundedWait_succeed _ tmo 0 ht
  have hrw : boundedWait env.rxSel tmo 0 = (true, 0 + 1) :=
    boundedWait_succeed _ tmo 0 hr
  refine ⟨?_, ?_⟩
  · intro t2 e2 i
    rcases hbw2 : boundedWait (fun i => !e2.busy i) t2 0 with ⟨b, bp⟩
    cases b
    · simp [i2c_read, hbw2]
    · rcases haw2 : boundedWait e2.txSel t2 0 with ⟨a, ap⟩
      cases a
      · simp [i2c_read, hbw2, haw2]
      · rcases hrw2 : boundedWait e2.rxSel t2 0 with ⟨r, rp⟩
        cases r
        · simp [i2c_read, hbw2, haw2, hrw2]
        · simp [i2c_read, hbw2, haw2, hrw2, readLoop]
  · refine ⟨?_, ?_, ?_, ?_⟩ <;>
      simp [i2c_read, i2c_write, hbw, haw, hrw, readLoop, writeLoop]

theorem C10_len_zero_witness :
    (i2c_read 0 envBusy 6 8 (fun _ => 9) 0).buf 3 = 9 ∧
    (i2c_read 1 envIdle 6 8 (fun _ => 9) 0).res = i2c_err_t.I2C_OK ∧
    (i2c_read 1 envIdle 6 8 (fun _ => 9) 0).trace =
      [Act.obs Ev.busClear, Act.start, Act.obs Ev.startSel, Act.writeData 6,
       Act.obs Ev.txSel, Act.writeData 8, Act.obs Ev.txe, Act.start,
       Act.obs Ev.startSel, Act.writeData 7, Act.obs Ev.rxSel, Act.stop] ∧
    (i2c_write 1 envIdle 6 8 (fun _ => 9) 0).res = i2c_err_t.I2C_OK ∧
    (i2c_write 1 envIdle 6 8 (fun _ => 9) 0).trace =
      [Act.obs Ev.busClear, Act.start, Act.obs Ev.startSel, Act.writeData 6,
       Act.obs Ev.txSel, Act.writeData 8, Act.obs Ev.txe, Act.obs Ev.btf,
       Act.stop] := by
  have h := C10_len_zero 1 envIdle 6 8 (fun _ => 9) rfl rfl rfl
  exact ⟨h.1 0 envBusy 3, h.2.1, h.2.2.1, h.2.2.2.1, h.2.2.2.2⟩
